import Mathlib

/- Verification development for the Parsec provider layer
   (src/src/providers/mod.rs and src/src/providers/mbed_provider/mod.rs).

   Shallow embedding conventions:
   * `psa_key_id_t` (a C `u32`) is embedded as `Nat`; no arithmetic on key ids
     occurs in the modelled code, so the 32-bit bound is irrelevant.
   * Calls into external C libraries (`psa_crypto_init`, `KeyHandle::open`)
     are oracles carried by an `MbedEnv` value.
   * The `ManageKeyInfo` trait object behind the `RwLock` is modelled as a
     concrete association list plus fault flags standing for the I/O failures
     an arbitrary implementation may exhibit (its `get`/`get_all`/`remove`
     return `Result<_, String>` in the source).
-/

/-- Provider identifiers (parsec_interface::requests::ProviderID). -/
inductive ProviderID where
  | Core
  | MbedCrypto
  | Pkcs11
  | Tpm
deriving DecidableEq, Repr

/-- Operation codes (parsec_interface::requests::Opcode). -/
inductive Opcode where
  | Ping
  | PsaGenerateKey
  | PsaDestroyKey
  | PsaSignHash
  | PsaVerifyHash
  | PsaImportKey
  | PsaExportPublicKey
  | ListProviders
  | ListOpcodes
deriving DecidableEq, Repr

/-- Response statuses used by the modelled code
(parsec_interface::requests::ResponseStatus). -/
inductive ResponseStatus where
  | Success
  | PsaErrorNotSupported
  | PsaErrorDoesNotExist
  | PsaErrorAlreadyExists
  | PsaErrorInvalidArgument
  | PsaErrorInsufficientMemory
  | PsaErrorNotPermitted
  | PsaErrorGenericError
  | ProviderNotRegistered
  | InvalidEncoding
  | KeyInfoManagerError
deriving DecidableEq, Repr

/-- A key triple (application name, key name, provider), the global identity
of a key (crate::key_info_managers::KeyTriple). -/
structure KeyTriple where
  app : String
  keyName : String
  provider : ProviderID
deriving DecidableEq, Repr

/-- Modelled from the spec: `KeyInfo` carries the backend-native id plus the
key attributes; only the id is consulted by the code under verification, so
the attributes are omitted. -/
structure KeyInfo where
  id : Nat
deriving DecidableEq, Repr

/-- PSA_SUCCESS return code of the Mbed Crypto C library. -/
def PSA_SUCCESS : Int := 0

/-- Modelled from the spec / the constants module (not under src/): the fixed
key-slot count of the software backend. The concrete value is irrelevant to
the claims; 32 is Mbed Crypto's default. -/
def PSA_KEY_SLOT_COUNT : Nat := 32

/-- Modelled from the spec: the state of a `ManageKeyInfo` implementation.
`entries` is the persistent triple-to-info map (§4.1); the three flags inject
the I/O failures (`Result<_, String>` errors) that an arbitrary
implementation may return from `get_all`, `get` and `remove`. -/
structure KIMState where
  entries : List (KeyTriple × KeyInfo)
  getAllError : Bool
  getError : KeyTriple → Bool
  removeError : KeyTriple → Bool

/-- Modelled from the spec: `get_all(provider_id)` lists the key triples
stored for one provider, or fails with an I/O error. -/
def KIMState.get_all (s : KIMState) (pid : ProviderID) :
    Except String (List KeyTriple) :=
  if s.getAllError then Except.error "KIM get_all error"
  else Except.ok ((s.entries.filter
    (fun e => decide (e.1.provider = pid))).map Prod.fst)

/-- Modelled from the spec: `get(triple)` returns the stored `KeyInfo` if
present, or fails with an I/O error. -/
def KIMState.get (s : KIMState) (t : KeyTriple) :
    Except String (Option KeyInfo) :=
  if s.getError t then Except.error "KIM get error"
  else Except.ok ((s.entries.find? (fun e => decide (e.1 = t))).map Prod.snd)

/-- Modelled from the spec: `remove(triple)` deletes the mapping for a
triple, or fails with an I/O error. -/
def KIMState.remove (s : KIMState) (t : KeyTriple) : Except String KIMState :=
  if s.removeError t then Except.error "KIM remove error"
  else Except.ok { s with entries := s.entries.filter (fun e => decide (e.1 ≠ t)) }

/-- Modelled from the spec: `key_management::get_key_id` (a sibling module of
mbed_provider/mod.rs, not under src/) fetches a triple's `KeyInfo` from the
KIM and returns the backend id stored in it; a KIM I/O failure surfaces as a
`KeyInfoManagerError` response status and a missing entry as
`PsaErrorDoesNotExist`. -/
def get_key_id (t : KeyTriple) (s : KIMState) : Except ResponseStatus Nat :=
  match s.get t with
  | Except.error _ => Except.error ResponseStatus.KeyInfoManagerError
  | Except.ok none => Except.error ResponseStatus.PsaErrorDoesNotExist
  | Except.ok (some info) => Except.ok info.id

/-- The environment of external effects observed by `MbedProvider::new`:
the return code of `psa_crypto_init`, the outcome of `KeyHandle::open` per
key id, and whether each of the two locks is poisoned when acquired. -/
structure MbedEnv where
  cryptoInitResult : Int
  openKey : Nat → Except ResponseStatus Unit
  storeLockPoisoned : Bool
  localIdsLockPoisoned : Bool

/-- The persistent-state part of the `MbedProvider` struct: the shared key
info store and the local id store (the mutexes and the semaphore are
concurrency primitives modelled separately). -/
structure MbedProvider where
  key_info_store : KIMState
  local_ids : Finset Nat

/-- The reconciliation loop of `MbedProvider::new` (mod.rs lines 108-141):
for each triple from `get_all`, fetch its key id (an error queues the triple
for removal and continues), then open it (success inserts the id into the
local id store, `PsaErrorDoesNotExist` queues the triple for removal, any
other error aborts returning `none`). -/
def initLoop (env : MbedEnv) (store : KIMState) :
    List KeyTriple → Finset Nat → List KeyTriple →
    Option (Finset Nat × List KeyTriple)
  | [], local_ids, to_remove => some (local_ids, to_remove)
  | t :: ts, local_ids, to_remove =>
    match get_key_id t store with
    | Except.error _ => initLoop env store ts local_ids (to_remove ++ [t])
    | Except.ok key_id =>
      match env.openKey key_id with
      | Except.ok _ => initLoop env store ts (insert key_id local_ids) to_remove
      | Except.error e =>
        if e = ResponseStatus.PsaErrorDoesNotExist then
          initLoop env store ts local_ids (to_remove ++ [t])
        else none

/-- The removal pass of `MbedProvider::new` (mod.rs lines 142-147): remove
each queued triple from the KIM; any KIM error aborts. -/
def applyRemovals : List KeyTriple → KIMState → Except String KIMState
  | [], s => Except.ok s
  | t :: ts, s =>
    match s.remove t with
    | Except.error e => Except.error e
    | Except.ok s2 => applyRemovals ts s2

/-- `MbedProvider::new` (mod.rs lines 80-151), non-panicking paths:
initialise Mbed Crypto (failure returns `none`), list the provider's triples
from the KIM (failure returns `none`), run the reconciliation loop, then
apply the queued removals (failure returns `none`). -/
def MbedProvider.new (env : MbedEnv) (key_info_store : KIMState) :
    Option MbedProvider :=
  if env.cryptoInitResult ≠ PSA_SUCCESS then none
  else
    match key_info_store.get_all ProviderID.MbedCrypto with
    | Except.error _ => none
    | Except.ok key_triples =>
      match initLoop env key_info_store key_triples ∅ [] with
      | none => none
      | some (local_ids, to_remove) =>
        match applyRemovals to_remove key_info_store with
        | Except.error _ => none
        | Except.ok store2 =>
          some { key_info_store := store2, local_ids := local_ids }

/-- Outcome of running a function that may panic. -/
inductive InitResult where
  | panicked (msg : String)
  | returned (p : Option MbedProvider)

/-- `MbedProvider::new` including its panicking paths: the two
`.expect(...)` calls on the write locks (mod.rs lines 96-103) panic when the
lock is poisoned; otherwise the non-panicking body runs. -/
def MbedProvider.newTotal (env : MbedEnv) (key_info_store : KIMState) :
    InitResult :=
  if env.cryptoInitResult ≠ PSA_SUCCESS then InitResult.returned none
  else if env.storeLockPoisoned then InitResult.panicked "Key store lock poisoned"
  else if env.localIdsLockPoisoned then InitResult.panicked "Local ID lock poisoned"
  else InitResult.returned (MbedProvider.new env key_info_store)

/-- Per-triple outcome of one iteration of the reconciliation loop; a proof
device re-expressing the nested match of `initLoop`. -/
inductive TripleOutcome where
  | keep (id : Nat)
  | discard
  | abort
deriving DecidableEq, Repr

/-- The outcome the reconciliation loop assigns to one triple. -/
def tripleOutcome (env : MbedEnv) (store : KIMState) (t : KeyTriple) :
    TripleOutcome :=
  match get_key_id t store with
  | Except.error _ => TripleOutcome.discard
  | Except.ok key_id =>
    match env.openKey key_id with
    | Except.ok _ => TripleOutcome.keep key_id
    | Except.error e =>
      if e = ResponseStatus.PsaErrorDoesNotExist then TripleOutcome.discard
      else TripleOutcome.abort

/-- Calls made into the Mbed Crypto C library by the modelled code. -/
inductive CryptoCall where
  | cryptoInit
  | cryptoFree
  | openCall (id : Nat)
deriving DecidableEq, Repr

/-- The Mbed Crypto calls emitted by the reconciliation loop: one open per
triple whose key id was fetched; an aborting open error stops the loop. -/
def initLoopTrace (env : MbedEnv) (store : KIMState) :
    List KeyTriple → List CryptoCall
  | [] => []
  | t :: ts =>
    match get_key_id t store with
    | Except.error _ => initLoopTrace env store ts
    | Except.ok key_id =>
      CryptoCall.openCall key_id ::
        (match env.openKey key_id with
         | Except.ok _ => initLoopTrace env store ts
         | Except.error e =>
           if e = ResponseStatus.PsaErrorDoesNotExist then
             initLoopTrace env store ts
           else [])

/-- The Mbed Crypto calls emitted by `MbedProvider::new`: `psa_crypto_init`
first (mod.rs line 83), then the loop's open calls when it proceeds. -/
def MbedProvider.newTrace (env : MbedEnv) (store : KIMState) :
    List CryptoCall :=
  CryptoCall.cryptoInit ::
    (if env.cryptoInitResult ≠ PSA_SUCCESS then []
     else
       match store.get_all ProviderID.MbedCrypto with
       | Except.error _ => []
       | Except.ok key_triples => initLoopTrace env store key_triples)

/-- The Mbed Crypto calls emitted by `Drop for MbedProvider` (mod.rs lines
217-224): exactly one `mbedtls_psa_crypto_free`. -/
def MbedProvider.dropTrace : List CryptoCall := [CryptoCall.cryptoFree]

/-- Provider description record
(parsec_interface::operations::list_providers::ProviderInfo). -/
structure ProviderInfo where
  uuid : String
  description : String
  vendor : String
  version_maj : Nat
  version_min : Nat
  version_rev : Nat
  id : ProviderID
deriving DecidableEq, Repr

/-- The opcodes supported by the Mbed provider (mod.rs lines 43-50). -/
def SUPPORTED_OPCODES : List Opcode :=
  [Opcode.PsaGenerateKey, Opcode.PsaDestroyKey, Opcode.PsaSignHash,
   Opcode.PsaVerifyHash, Opcode.PsaImportKey, Opcode.PsaExportPublicKey]

/-- Hexadecimal digit test on a character. -/
def isHexDigit (c : Char) : Bool :=
  (48 ≤ c.toNat ∧ c.toNat ≤ 57) ∨ (97 ≤ c.toNat ∧ c.toNat ≤ 102) ∨
    (65 ≤ c.toNat ∧ c.toNat ≤ 70)

/-- Well-formedness of a hyphenated UUID string (8-4-4-4-12 lowercase or
uppercase hex), the format accepted by `Uuid::parse_str`. -/
def uuidWellFormed (s : String) : Bool :=
  s.length = 36 &&
    (s.toList.enum.all fun ic =>
      if ic.1 = 8 ∨ ic.1 = 13 ∨ ic.1 = 18 ∨ ic.1 = 23 then ic.2 = '-'
      else isHexDigit ic.2)

/-- Modelled from the uuid crate used by the source: `Uuid::parse_str`
succeeds exactly on well-formed UUID strings; the parsed value is kept as the
string itself. -/
def Uuid.parse_str (s : String) : Option String :=
  if uuidWellFormed s then some s else none

/-- `MbedProvider::describe` (mod.rs lines 155-166): parse the fixed UUID
(mapping a parse failure to `InvalidEncoding`) and return the provider info
together with the supported opcode set. -/
def MbedProvider.describe :
    Except ResponseStatus (ProviderInfo × Finset Opcode) :=
  match Uuid.parse_str "1c1139dc-ad7c-47dc-ad6b-db6fdb466552" with
  | none => Except.error ResponseStatus.InvalidEncoding
  | some u =>
    Except.ok
      ({ uuid := u,
         description := "User space software provider, based on Mbed Crypto - the reference implementation of the PSA crypto API",
         vendor := "Arm",
         version_maj := 0,
         version_min := 1,
         version_rev := 0,
         id := ProviderID.MbedCrypto },
       SUPPORTED_OPCODES.toFinset)

/-- Application names are opaque identifier strings. -/
def ApplicationName := String

/-- Modelled from the spec: operation and result payloads are opaque to the
default trait implementations, which never inspect them; each is a
placeholder one-constructor type. -/
inductive ListProvidersOp | mk
deriving DecidableEq, Repr

inductive ListProvidersRes | mk
deriving DecidableEq, Repr

inductive ListOpcodesOp | mk
deriving DecidableEq, Repr

inductive ListOpcodesRes | mk
deriving DecidableEq, Repr

inductive PingOp | mk
deriving DecidableEq, Repr

inductive PingRes | mk
deriving DecidableEq, Repr

inductive PsaGenerateKeyOp | mk
deriving DecidableEq, Repr

inductive PsaGenerateKeyRes | mk
deriving DecidableEq, Repr

inductive PsaImportKeyOp | mk
deriving DecidableEq, Repr

inductive PsaImportKeyRes | mk
deriving DecidableEq, Repr

inductive PsaExportPublicKeyOp | mk
deriving DecidableEq, Repr

inductive PsaExportPublicKeyRes | mk
deriving DecidableEq, Repr

inductive PsaDestroyKeyOp | mk
deriving DecidableEq, Repr

inductive PsaDestroyKeyRes | mk
deriving DecidableEq, Repr

inductive PsaSignHashOp | mk
deriving DecidableEq, Repr

inductive PsaSignHashRes | mk
deriving DecidableEq, Repr

inductive PsaVerifyHashOp | mk
deriving DecidableEq, Repr

inductive PsaVerifyHashRes | mk
deriving DecidableEq, Repr

/-- Default body of `Provide::describe` (providers/mod.rs lines 90-92). -/
def Provide.default_describe :
    Except ResponseStatus (ProviderInfo × Finset Opcode) :=
  Except.error ResponseStatus.PsaErrorNotSupported

/-- Default body of `Provide::list_providers` (providers/mod.rs lines 95-97). -/
def Provide.default_list_providers (_op : ListProvidersOp) :
    Except ResponseStatus ListProvidersRes :=
  Except.error ResponseStatus.PsaErrorNotSupported

/-- Default body of `Provide::list_opcodes` (providers/mod.rs lines 100-102). -/
def Provide.default_list_opcodes (_op : ListOpcodesOp) :
    Except ResponseStatus ListOpcodesRes :=
  Except.error ResponseStatus.PsaErrorNotSupported

/-- Default body of `Provide::ping` (providers/mod.rs lines 110-112). -/
def Provide.default_ping (_op : PingOp) : Except ResponseStatus PingRes :=
  Except.error ResponseStatus.PsaErrorNotSupported

/-- Default body of `Provide::psa_generate_key` (providers/mod.rs lines 115-121). -/
def Provide.default_psa_generate_key (_app : ApplicationName)
    (_op : PsaGenerateKeyOp) : Except ResponseStatus PsaGenerateKeyRes :=
  Except.error ResponseStatus.PsaErrorNotSupported

/-- Default body of `Provide::psa_import_key` (providers/mod.rs lines 124-130). -/
def Provide.default_psa_import_key (_app : ApplicationName)
    (_op : PsaImportKeyOp) : Except ResponseStatus PsaImportKeyRes :=
  Except.error ResponseStatus.PsaErrorNotSupported

/-- Default body of `Provide::psa_export_public_key` (providers/mod.rs lines 133-139). -/
def Provide.default_psa_export_public_key (_app : ApplicationName)
    (_op : PsaExportPublicKeyOp) : Except ResponseStatus PsaExportPublicKeyRes :=
  Except.error ResponseStatus.PsaErrorNotSupported

/-- Default body of `Provide::psa_destroy_key` (providers/mod.rs lines 142-148). -/
def Provide.default_psa_destroy_key (_app : ApplicationName)
    (_op : PsaDestroyKeyOp) : Except ResponseStatus PsaDestroyKeyRes :=
  Except.error ResponseStatus.PsaErrorNotSupported

/-- Default body of `Provide::psa_sign_hash` (providers/mod.rs lines 152-158). -/
def Provide.default_psa_sign_hash (_app : ApplicationName)
    (_op : PsaSignHashOp) : Except ResponseStatus PsaSignHashRes :=
  Except.error ResponseStatus.PsaErrorNotSupported

/-- Default body of `Provide::psa_verify_hash` (providers/mod.rs lines 161-167). -/
def Provide.default_psa_verify_hash (_app : ApplicationName)
    (_op : PsaVerifyHashOp) : Except ResponseStatus PsaVerifyHashRes :=
  Except.error ResponseStatus.PsaErrorNotSupported

/-- Provider configuration variants (providers/mod.rs lines 24-45). -/
inductive ProviderConfig where
  | MbedCrypto (key_info_manager : String)
  | Pkcs11 (key_info_manager : String) (library_path : String)
      (slot_number : Nat) (user_pin : Option String)
  | Tpm (key_info_manager : String) (tcti : String)
      (owner_hierarchy_auth : String)
deriving DecidableEq, Repr

/-- `ProviderConfig::key_info_manager` (providers/mod.rs lines 50-65). -/
def ProviderConfig.key_info_manager : ProviderConfig → String
  | ProviderConfig.MbedCrypto kim => kim
  | ProviderConfig.Pkcs11 kim _ _ _ => kim
  | ProviderConfig.Tpm kim _ _ => kim

/-- `ProviderConfig::provider_id` (providers/mod.rs lines 66-72). -/
def ProviderConfig.provider_id : ProviderConfig → ProviderID
  | ProviderConfig.MbedCrypto _ => ProviderID.MbedCrypto
  | ProviderConfig.Pkcs11 _ _ _ _ => ProviderID.Pkcs11
  | ProviderConfig.Tpm _ _ _ => ProviderID.Tpm

/-- The serde tag naming each `ProviderConfig` variant. -/
def ProviderConfig.tag : ProviderConfig → String
  | ProviderConfig.MbedCrypto _ => "MbedCrypto"
  | ProviderConfig.Pkcs11 _ _ _ _ => "Pkcs11"
  | ProviderConfig.Tpm _ _ _ => "Tpm"

/-- A primitive value in a serialized configuration record. -/
inductive ConfigValue where
  | str (s : String)
  | num (n : Nat)
deriving DecidableEq, Repr

/-- Field lookup in a serialized configuration record. -/
def lookupField (fields : List (String × ConfigValue)) (k : String) :
    Option ConfigValue :=
  (fields.find? (fun f => decide (f.1 = k))).map Prod.snd

/-- Modelled from the spec and the serde attribute in the source: internally
tagged deserialization of `ProviderConfig` — the "provider_type" field
selects the variant and the remaining fields populate it; `user_pin` is
optional for Pkcs11. -/
def deserializeProviderConfig (fields : List (String × ConfigValue)) :
    Except String ProviderConfig :=
  match lookupField fields "provider_type" with
  | some (ConfigValue.str tag) =>
    if tag = "MbedCrypto" then
      match lookupField fields "key_info_manager" with
      | some (ConfigValue.str kim) => Except.ok (ProviderConfig.MbedCrypto kim)
      | _ => Except.error "missing field key_info_manager"
    else if tag = "Pkcs11" then
      match lookupField fields "key_info_manager",
          lookupField fields "library_path",
          lookupField fields "slot_number" with
      | some (ConfigValue.str kim), some (ConfigValue.str lib),
          some (ConfigValue.num slot) =>
        match lookupField fields "user_pin" with
        | none => Except.ok (ProviderConfig.Pkcs11 kim lib slot none)
        | some (ConfigValue.str pin) =>
          Except.ok (ProviderConfig.Pkcs11 kim lib slot (some pin))
        | some _ => Except.error "invalid field user_pin"
      | _, _, _ => Except.error "missing Pkcs11 field"
    else if tag = "Tpm" then
      match lookupField fields "key_info_manager",
          lookupField fields "tcti",
          lookupField fields "owner_hierarchy_auth" with
      | some (ConfigValue.str kim), some (ConfigValue.str tcti),
          some (ConfigValue.str auth) =>
        Except.ok (ProviderConfig.Tpm kim tcti auth)
      | _, _, _ => Except.error "missing Tpm field"
    else Except.error "unknown provider_type"
  | _ => Except.error "missing provider_type"

/-- State of the software backend's slot accounting: free semaphore permits,
permits held by threads without an open slot, and open slots. -/
structure SlotState where
  permits : Nat
  holding : Nat
  openSlots : Nat
deriving DecidableEq, Repr

/-- Modelled from the spec (§4.3 per-operation protocol): a thread acquires a
semaphore permit, opens a slot under the permit, closes the slot, and
releases the permit. -/
inductive SlotStep : SlotState → SlotState → Prop
  | acquire (p h o : Nat) :
      SlotStep ⟨p + 1, h, o⟩ ⟨p, h + 1, o⟩
  | openSlot (p h o : Nat) :
      SlotStep ⟨p, h + 1, o⟩ ⟨p, h, o + 1⟩
  | closeSlot (p h o : Nat) :
      SlotStep ⟨p, h, o + 1⟩ ⟨p, h + 1, o⟩
  | release (p h o : Nat) :
      SlotStep ⟨p, h + 1, o⟩ ⟨p + 1, h, o⟩

/-- Reachability in the slot protocol. -/
def SlotReachable (s s2 : SlotState) : Prop :=
  Relation.ReflTransGen SlotStep s s2

/-- The initial slot state of the Mbed provider: the semaphore is constructed
with `PSA_KEY_SLOT_COUNT` permits (mod.rs line 91), no slot open. -/
def mbedInitialSlotState : SlotState :=
  { permits := PSA_KEY_SLOT_COUNT, holding := 0, openSlots := 0 }

/-- io::ErrorKind values used by the builder. -/
inductive IoErrorKind where
  | InvalidData
deriving DecidableEq, Repr

/-- An io::Error value: a kind plus a message. -/
structure IoError where
  kind : IoErrorKind
  msg : String
deriving DecidableEq, Repr

/-- Outcome of running the builder, which may propagate a panic from
`MbedProvider::new`. -/
inductive BuildResult where
  | panicked (msg : String)
  | completed (r : Except IoError MbedProvider)

/-- The `MbedProviderBuilder` struct (mod.rs lines 228-231). -/
structure MbedProviderBuilder where
  key_info_store : Option KIMState

/-- `MbedProviderBuilder::new` (mod.rs lines 234-238). -/
def MbedProviderBuilder.newBuilder : MbedProviderBuilder :=
  { key_info_store := none }

/-- `MbedProviderBuilder::with_key_info_store` (mod.rs lines 240-247). -/
def MbedProviderBuilder.with_key_info_store (b : MbedProviderBuilder)
    (s : KIMState) : MbedProviderBuilder :=
  { b with key_info_store := some s }

/-- `MbedProviderBuilder::build` (mod.rs lines 249-260): a missing store is
an `InvalidData` error; otherwise `MbedProvider::new` runs (propagating its
panics), `None` becomes an `InvalidData` error and `Some` is returned. -/
def MbedProviderBuilder.build (env : MbedEnv) (b : MbedProviderBuilder) :
    BuildResult :=
  match b.key_info_store with
  | none =>
    BuildResult.completed
      (Except.error { kind := IoErrorKind.InvalidData,
                      msg := "missing key info store" })
  | some store =>
    match MbedProvider.newTotal env store with
    | InitResult.panicked m => BuildResult.panicked m
    | InitResult.returned none =>
      BuildResult.completed
        (Except.error { kind := IoErrorKind.InvalidData,
                        msg := "Mbed Provider initialization failed" })
    | InitResult.returned (some p) => BuildResult.completed (Except.ok p)

/-- Invariant I2 (Mirror): every MbedCrypto triple remaining in the KIM has
its backend id present in the local id store. -/
def InvariantI2 (p : MbedProvider) : Prop :=
  ∀ t info, (t, info) ∈ p.key_info_store.entries →
    t.provider = ProviderID.MbedCrypto → info.id ∈ p.local_ids

/-- Invariant I3 (No leak): every id in the local id store corresponds to
exactly one MbedCrypto triple in the KIM. -/
def InvariantI3 (p : MbedProvider) : Prop :=
  ∀ id ∈ p.local_ids, ∃ t info,
    (t, info) ∈ p.key_info_store.entries ∧
    t.provider = ProviderID.MbedCrypto ∧ info.id = id ∧
    ∀ t2 info2, (t2, info2) ∈ p.key_info_store.entries →
      t2.provider = ProviderID.MbedCrypto → info2.id = id → t2 = t

/-- Conclusion of the reconciliation claim about `MbedProvider::new`, for a
given environment, initial store and triple list returned by `get_all`:
opened ids are inserted into the local id store, `PsaErrorDoesNotExist`
queues the triple for removal, any other open error makes `new` return
`none`, and the queued removals are applied to the pre-loop store only after
the loop over all triples has completed. -/
def ReconcileConcl (env : MbedEnv) (store : KIMState)
    (key_triples : List KeyTriple) : Prop :=
  (∀ p, MbedProvider.new env store = some p →
     ∀ t ∈ key_triples, ∀ id, get_key_id t store = Except.ok id →
       env.openKey id = Except.ok () → id ∈ p.local_ids) ∧
  (∀ local_ids to_remove,
     initLoop env store key_triples ∅ [] = some (local_ids, to_remove) →
     ∀ t ∈ key_triples, ∀ id, get_key_id t store = Except.ok id →
       env.openKey id = Except.error ResponseStatus.PsaErrorDoesNotExist →
       t ∈ to_remove) ∧
  ((∃ t ∈ key_triples, ∃ id e, get_key_id t store = Except.ok id ∧
       env.openKey id = Except.error e ∧
       e ≠ ResponseStatus.PsaErrorDoesNotExist) →
     MbedProvider.new env store = none) ∧
  (MbedProvider.new env store =
     match initLoop env store key_triples ∅ [] with
     | none => none
     | some (local_ids, to_remove) =>
       match applyRemovals to_remove store with
       | Except.error _ => none
       | Except.ok store2 =>
         some { key_info_store := store2, local_ids := local_ids })

/-- A concrete MbedCrypto key triple. -/
def tA : KeyTriple :=
  { app := "app1", keyName := "key1", provider := ProviderID.MbedCrypto }

/-- A second concrete MbedCrypto key triple. -/
def tB : KeyTriple :=
  { app := "app1", keyName := "key2", provider := ProviderID.MbedCrypto }

/-- Concrete key infos. -/
def iA : KeyInfo := { id := 1 }

def iB : KeyInfo := { id := 2 }

def i5 : KeyInfo := { id := 5 }

/-- A store with two live triples and no injected faults. -/
def storeC1 : KIMState :=
  { entries := [(tA, iA), (tB, iB)], getAllError := false,
    getError := fun _ => false, removeError := fun _ => false }

/-- A store with a single live triple and no injected faults. -/
def storeOne : KIMState :=
  { entries := [(tA, iA)], getAllError := false,
    getError := fun _ => false, removeError := fun _ => false }

/-- A store in which two distinct MbedCrypto triples carry the same backend
id. -/
def storeDup : KIMState :=
  { entries := [(tA, i5), (tB, i5)], getAllError := false,
    getError := fun _ => false, removeError := fun _ => false }

/-- A store whose `get` fails with an I/O error for `tA`. -/
def storeGetErr : KIMState :=
  { entries := [(tA, iA)], getAllError := false,
    getError := fun t => decide (t = tA), removeError := fun _ => false }

/-- A store whose `get_all` fails with an I/O error. -/
def storeGAErr : KIMState :=
  { entries := [], getAllError := true,
    getError := fun _ => false, removeError := fun _ => false }

/-- An empty, fault-free store. -/
def storeEmpty : KIMState :=
  { entries := [], getAllError := false,
    getError := fun _ => false, removeError := fun _ => false }

/-- An environment where Mbed Crypto initialises, only key id 1 opens
(everything else does not exist), and no lock is poisoned. -/
def envOpen1 : MbedEnv :=
  { cryptoInitResult := 0,
    openKey := fun id =>
      if id = 1 then Except.ok ()
      else Except.error ResponseStatus.PsaErrorDoesNotExist,
    storeLockPoisoned := false, localIdsLockPoisoned := false }

/-- An environment where only key id 5 opens. -/
def envOpen5 : MbedEnv :=
  { cryptoInitResult := 0,
    openKey := fun id =>
      if id = 5 then Except.ok ()
      else Except.error ResponseStatus.PsaErrorDoesNotExist,
    storeLockPoisoned := false, localIdsLockPoisoned := false }

/-- An environment where opening key id 2 fails with a generic error. -/
def envOpenGeneric : MbedEnv :=
  { cryptoInitResult := 0,
    openKey := fun id =>
      if id = 1 then Except.ok ()
      else Except.error ResponseStatus.PsaErrorGenericError,
    storeLockPoisoned := false, localIdsLockPoisoned := false }

/-- An environment with a poisoned key-info-store lock. -/
def envPoisonStore : MbedEnv :=
  { cryptoInitResult := 0, openKey := fun _ => Except.ok (),
    storeLockPoisoned := true, localIdsLockPoisoned := false }

/-- An environment where `psa_crypto_init` fails. -/
def envInitFail : MbedEnv :=
  { cryptoInitResult := 1, openKey := fun _ => Except.ok (),
    storeLockPoisoned := false, localIdsLockPoisoned := false }

/-- One unfolding step of the reconciliation loop, phrased through the
per-triple outcome. -/
theorem initLoop_cons (env : MbedEnv) (store : KIMState) (t : KeyTriple)
    (ts : List KeyTriple) (L : Finset Nat) (R : List KeyTriple) :
    initLoop env store (t :: ts) L R =
      match tripleOutcome env store t with
      | TripleOutcome.keep id => initLoop env store ts (insert id L) R
      | TripleOutcome.discard => initLoop env store ts L (R ++ [t])
      | TripleOutcome.abort => none := by
  cases hk : get_key_id t store with
  | error e => simp [initLoop, tripleOutcome, hk]
  | ok id =>
    cases ho : env.openKey id with
    | ok u => simp [initLoop, tripleOutcome, hk, ho]
    | error e =>
      by_cases he : e = ResponseStatus.PsaErrorDoesNotExist <;>
        simp [initLoop, tripleOutcome, hk, ho, he]

/-- The reconciliation loop returns `none` exactly when some triple in the
list has the aborting outcome. -/
theorem initLoop_none_iff (env : MbedEnv) (store : KIMState) :
    ∀ (l : List KeyTriple) (L : Finset Nat) (R : List KeyTriple),
    initLoop env store l L R = none ↔
      ∃ t ∈ l, tripleOutcome env store t = TripleOutcome.abort := by
  intro l
  induction l with
  | nil => intro L R; simp [initLoop]
  | cons t ts ih =>
    intro L R
    rw [initLoop_cons]
    cases hto : tripleOutcome env store t with
    | keep id =>
      dsimp only
      rw [ih]
      simp [List.exists_mem_cons_iff, hto]
    | discard =>
      dsimp only
      rw [ih]
      simp [hto]
    | abort =>
      dsimp only
      simp [hto]

/-- When the reconciliation loop completes, the resulting local id store
holds exactly the initial ids plus the kept ids of the list, and the removal
queue holds exactly the initial queue plus the discarded triples. -/
theorem initLoop_some_char (env : MbedEnv) (store : KIMState) :
    ∀ (l : List KeyTriple) (L L2 : Finset Nat) (R R2 : List KeyTriple),
    initLoop env store l L R = some (L2, R2) →
      (∀ id, id ∈ L2 ↔ id ∈ L ∨
        ∃ t ∈ l, tripleOutcome env store t = TripleOutcome.keep id) ∧
      (∀ r, r ∈ R2 ↔ r ∈ R ∨
        (r ∈ l ∧ tripleOutcome env store r = TripleOutcome.discard)) := by
  intro l
  induction l with
  | nil =>
    intro L L2 R R2 h
    simp [initLoop] at h
    obtain ⟨h1, h2⟩ := h
    subst h1; subst h2
    simp
  | cons t ts ih =>
    intro L L2 R R2 h
    rw [initLoop_cons] at h
    cases hto : tripleOutcome env store t with
    | keep id =>
      rw [hto] at h
      dsimp only at h
      obtain ⟨hL, hR⟩ := ih (insert id L) L2 R R2 h
      constructor
      · intro x
        rw [hL x]
        simp only [Finset.mem_insert, List.exists_mem_cons_iff, hto,
          TripleOutcome.keep.injEq]
        tauto
      · intro r
        rw [hR r]
        simp only [List.mem_cons]
        constructor
        · rintro (hr | ⟨hr, ho⟩)
          · exact Or.inl hr
          · exact Or.inr ⟨Or.inr hr, ho⟩
        · rintro (hr | ⟨rfl | hr, ho⟩)
          · exact Or.inl hr
          · rw [hto] at ho; cases ho
          · exact Or.inr ⟨hr, ho⟩
    | discard =>
      rw [hto] at h
      dsimp only at h
      obtain ⟨hL, hR⟩ := ih L L2 (R ++ [t]) R2 h
      constructor
      · intro x
        rw [hL x]
        simp only [List.exists_mem_cons_iff, hto]
        constructor
        · rintro (hx | hx)
          · exact Or.inl hx
          · exact Or.inr (Or.inr hx)
        · rintro (hx | hx | hx)
          · exact Or.inl hx
          · cases hx
          · exact Or.inr hx
      · intro r
        rw [hR r]
        simp only [List.mem_append, List.mem_singleton, List.mem_cons]
        constructor
        · rintro ((hr | (rfl | hnil)) | ⟨hr, ho⟩)
          · exact Or.inl hr
          · exact Or.inr ⟨Or.inl rfl, hto⟩
          · cases hnil
          · exact Or.inr ⟨Or.inr hr, ho⟩
        · rintro (hr | ⟨rfl | hr, ho⟩)
          · exact Or.inl (Or.inl hr)
          · exact Or.inl (Or.inr (Or.inl rfl))
          · exact Or.inr ⟨hr, ho⟩
    | abort =>
      rw [hto] at h
      dsimp only at h
      cases h

/-- Inversion for a successful single KIM removal. -/
theorem KIMState.remove_ok_inv {s : KIMState} {t : KeyTriple} {s2 : KIMState}
    (h : s.remove t = Except.ok s2) :
    s.removeError t = false ∧
    s2.entries = s.entries.filter (fun e => decide (e.1 ≠ t)) ∧
    s2.getAllError = s.getAllError ∧ s2.getError = s.getError ∧
    s2.removeError = s.removeError := by
  cases hr : s.removeError t with
  | true => simp [KIMState.remove, hr] at h
  | false =>
    simp [KIMState.remove, hr] at h
    subst h
    simp

/-- Inversion for a successful removal pass: the final entries are the
initial entries minus the removed triples, the fault flags are unchanged,
and no removed triple had an injected removal fault. -/
theorem applyRemovals_ok_inv :
    ∀ (l : List KeyTriple) (s s2 : KIMState),
    applyRemovals l s = Except.ok s2 →
      s2.entries = s.entries.filter (fun e => decide (e.1 ∉ l)) ∧
      s2.getAllError = s.getAllError ∧ s2.getError = s.getError ∧
      s2.removeError = s.removeError ∧
      ∀ r ∈ l, s.removeError r = false := by
  intro l
  induction l with
  | nil =>
    intro s s2 h
    simp [applyRemovals] at h
    subst h
    simp
  | cons t ts ih =>
    intro s s2 h
    cases hrm : s.remove t with
    | error e => simp [applyRemovals, hrm] at h
    | ok s1 =>
      simp only [applyRemovals, hrm] at h
      obtain ⟨he, hga, hge, hre, hall⟩ := ih s1 s2 h
      obtain ⟨hr0, he1, hga1, hge1, hre1⟩ := KIMState.remove_ok_inv hrm
      refine ⟨?_, by rw [hga, hga1], by rw [hge, hge1], by rw [hre, hre1], ?_⟩
      · rw [he, he1, List.filter_filter]
        apply List.filter_congr
        intro e _
        by_cases h1 : e.1 = t <;> by_cases h2 : e.1 ∈ ts <;>
          simp [h1, h2]
      · intro r hr
        rcases List.mem_cons.mp hr with rfl | hr2
        · exact hr0
        · have := hall r hr2
          rwa [hre1] at this

/-- A removal fault on any queued triple makes the removal pass fail. -/
theorem applyRemovals_error_of :
    ∀ (l : List KeyTriple) (s : KIMState) (r : KeyTriple), r ∈ l →
    s.removeError r = true →
    ∃ e, applyRemovals l s = Except.error e := by
  intro l
  induction l with
  | nil =>
    intro s r hr _
    cases hr
  | cons t ts ih =>
    intro s r hr hre
    cases hrm : s.remove t with
    | error e => exact ⟨e, by simp [applyRemovals, hrm]⟩
    | ok s1 =>
      obtain ⟨hr0, _, _, _, hre1⟩ := KIMState.remove_ok_inv hrm
      rcases List.mem_cons.mp hr with rfl | hr2
      · rw [hre] at hr0
        cases hr0
      · obtain ⟨e, happ⟩ := ih s1 r hr2 (by rw [hre1]; exact hre)
        exact ⟨e, by simp [applyRemovals, hrm, happ]⟩

/-- Inversion for a successful `get_all`. -/
theorem KIMState.get_all_ok_inv {s : KIMState} {pid : ProviderID}
    {l : List KeyTriple} (h : s.get_all pid = Except.ok l) :
    s.getAllError = false ∧
    l = (s.entries.filter
      (fun e => decide (e.1.provider = pid))).map Prod.fst := by
  cases hga : s.getAllError with
  | true => simp [KIMState.get_all, hga] at h
  | false =>
    simp [KIMState.get_all, hga] at h
    exact ⟨rfl, h.symm⟩

/-- On a list whose keys are distinct, `find?` by key returns the unique
entry holding that key. -/
theorem find?_key_of_nodup :
    ∀ (l : List (KeyTriple × KeyInfo)), (l.map Prod.fst).Nodup →
    ∀ (t : KeyTriple) (info : KeyInfo), (t, info) ∈ l →
    l.find? (fun e => decide (e.1 = t)) = some (t, info) := by
  intro l
  induction l with
  | nil =>
    intro _ t info hm
    cases hm
  | cons e l ih =>
    intro hnd t info hm
    rw [List.map_cons, List.nodup_cons] at hnd
    by_cases he : e.1 = t
    · have hef : e = (t, info) := by
        rcases List.mem_cons.mp hm with h | h
        · exact h.symm
        · exact absurd (he ▸ List.mem_map_of_mem Prod.fst h) hnd.1
      rw [List.find?_cons_of_pos _ (by simp [he])]
      rw [hef]
    · rw [List.find?_cons_of_neg _ (by simp [he])]
      refine ih hnd.2 t info ?_
      rcases List.mem_cons.mp hm with h | h
      · exact absurd (congrArg Prod.fst h.symm) he
      · exact h

/-- Equation for `MbedProvider::new` once initialisation and `get_all` have
succeeded. -/
theorem MbedProvider.new_eq {env : MbedEnv} {store : KIMState}
    {key_triples : List KeyTriple}
    (hinit : env.cryptoInitResult = PSA_SUCCESS)
    (hga : store.get_all ProviderID.MbedCrypto = Except.ok key_triples) :
    MbedProvider.new env store =
      match initLoop env store key_triples ∅ [] with
      | none => none
      | some (local_ids, to_remove) =>
        match applyRemovals to_remove store with
        | Except.error _ => none
        | Except.ok store2 =>
          some { key_info_store := store2, local_ids := local_ids } := by
  unfold MbedProvider.new
  rw [hga, hinit]
  simp

/-- `MbedProvider::new` returns `none` when `get_all` fails. -/
theorem MbedProvider.new_none_of_get_all_error {env : MbedEnv}
    {store : KIMState} {e : String}
    (hga : store.get_all ProviderID.MbedCrypto = Except.error e) :
    MbedProvider.new env store = none := by
  unfold MbedProvider.new
  rw [hga]
  by_cases hinit : env.cryptoInitResult ≠ PSA_SUCCESS <;> simp [hinit]

/-- Inversion for a successful `MbedProvider::new`. -/
theorem MbedProvider.new_some_inv {env : MbedEnv} {store : KIMState}
    {p : MbedProvider} (h : MbedProvider.new env store = some p) :
    env.cryptoInitResult = PSA_SUCCESS ∧
    ∃ key_triples local_ids to_remove,
      store.get_all ProviderID.MbedCrypto = Except.ok key_triples ∧
      initLoop env store key_triples ∅ [] = some (local_ids, to_remove) ∧
      applyRemovals to_remove store = Except.ok p.key_info_store ∧
      p.local_ids = local_ids := by
  have hinit : env.cryptoInitResult = PSA_SUCCESS := by
    by_contra hne
    rw [MbedProvider.new, if_pos hne] at h
    cases h
  refine ⟨hinit, ?_⟩
  cases hga : store.get_all ProviderID.MbedCrypto with
  | error e =>
    rw [MbedProvider.new_none_of_get_all_error hga] at h
    cases h
  | ok key_triples =>
    rw [MbedProvider.new_eq hinit hga] at h
    cases hloop : initLoop env store key_triples ∅ [] with
    | none =>
      rw [hloop] at h
      cases h
    | some pr =>
      obtain ⟨local_ids, to_remove⟩ := pr
      rw [hloop] at h
      dsimp only at h
      cases har : applyRemovals to_remove store with
      | error e =>
        rw [har] at h
        cases h
      | ok store2 =>
        rw [har] at h
        dsimp only at h
        cases h
        exact ⟨key_triples, local_ids, to_remove, rfl, hloop, har, rfl⟩

/-- With no lock poisoned, `newTotal` returns what `new` returns. -/
theorem MbedProvider.newTotal_eq_of_not_poisoned {env : MbedEnv}
    {store : KIMState} (hs : env.storeLockPoisoned = false)
    (hl : env.localIdsLockPoisoned = false) :
    MbedProvider.newTotal env store =
      InitResult.returned (MbedProvider.new env store) := by
  unfold MbedProvider.newTotal
  by_cases hinit : env.cryptoInitResult ≠ PSA_SUCCESS
  · simp [hinit, MbedProvider.new]
  · simp [hinit, hs, hl]

/-- A kept outcome means the key id was fetched and opened successfully. -/
theorem tripleOutcome_keep_inv {env : MbedEnv} {store : KIMState}
    {t : KeyTriple} {id : Nat}
    (h : tripleOutcome env store t = TripleOutcome.keep id) :
    get_key_id t store = Except.ok id ∧ env.openKey id = Except.ok () := by
  cases hk : get_key_id t store with
  | error e => simp [tripleOutcome, hk] at h
  | ok id2 =>
    cases ho : env.openKey id2 with
    | ok u =>
      simp [tripleOutcome, hk, ho] at h
      subst h
      cases u
      exact ⟨rfl, ho⟩
    | error e =>
      by_cases he : e = ResponseStatus.PsaErrorDoesNotExist <;>
        simp [tripleOutcome, hk, ho, he] at h

/-- A successful fetch and open gives the kept outcome. -/
theorem tripleOutcome_keep_of {env : MbedEnv} {store : KIMState}
    {t : KeyTriple} {id : Nat} (hk : get_key_id t store = Except.ok id)
    (ho : env.openKey id = Except.ok ()) :
    tripleOutcome env store t = TripleOutcome.keep id := by
  simp [tripleOutcome, hk, ho]

/-- An open responding `PsaErrorDoesNotExist` gives the discarded outcome. -/
theorem tripleOutcome_discard_of_dne {env : MbedEnv} {store : KIMState}
    {t : KeyTriple} {id : Nat} (hk : get_key_id t store = Except.ok id)
    (ho : env.openKey id = Except.error ResponseStatus.PsaErrorDoesNotExist) :
    tripleOutcome env store t = TripleOutcome.discard := by
  simp [tripleOutcome, hk, ho]

/-- A key-id fetch error gives the discarded outcome. -/
theorem tripleOutcome_discard_of_get_error {env : MbedEnv} {store : KIMState}
    {t : KeyTriple} {e : ResponseStatus}
    (hk : get_key_id t store = Except.error e) :
    tripleOutcome env store t = TripleOutcome.discard := by
  simp [tripleOutcome, hk]

/-- Any other open error gives the aborting outcome. -/
theorem tripleOutcome_abort_of {env : MbedEnv} {store : KIMState}
    {t : KeyTriple} {id : Nat} {e : ResponseStatus}
    (hk : get_key_id t store = Except.ok id)
    (ho : env.openKey id = Except.error e)
    (hne : e ≠ ResponseStatus.PsaErrorDoesNotExist) :
    tripleOutcome env store t = TripleOutcome.abort := by
  simp [tripleOutcome, hk, ho, hne]

/-- A successful key-id fetch exhibits a stored entry carrying that id. -/
theorem get_key_id_ok_inv {store : KIMState} {t : KeyTriple} {id : Nat}
    (h : get_key_id t store = Except.ok id) :
    store.getError t = false ∧
    ∃ info, (t, info) ∈ store.entries ∧ info.id = id := by
  cases hge : store.getError t with
  | true => simp [get_key_id, KIMState.get, hge] at h
  | false =>
    refine ⟨rfl, ?_⟩
    simp only [get_key_id, KIMState.get, hge, if_neg Bool.false_ne_true] at h
    cases hf : store.entries.find? (fun e => decide (e.1 = t)) with
    | none =>
      rw [hf] at h
      simp at h
    | some e =>
      rw [hf] at h
      simp at h
      have hmem := List.mem_of_find?_eq_some hf
      have hpred := List.find?_some hf
      have ht : e.1 = t := of_decide_eq_true hpred
      refine ⟨e.2, ?_, h⟩
      rw [← ht]
      exact hmem

/-- On a store with distinct keys, the key id fetched for a stored triple is
the id in its entry. -/
theorem get_key_id_ok_det {store : KIMState} {t : KeyTriple} {info : KeyInfo}
    {id : Nat} (hnd : (store.entries.map Prod.fst).Nodup)
    (hm : (t, info) ∈ store.entries)
    (h : get_key_id t store = Except.ok id) : id = info.id := by
  have hf := find?_key_of_nodup store.entries hnd t info hm
  cases hge : store.getError t with
  | true => simp [get_key_id, KIMState.get, hge] at h
  | false =>
    simp [get_key_id, KIMState.get, hge, hf] at h
    exact h.symm

/-- C1: during MbedProvider initialisation, for every key triple returned by
`get_all(MbedCrypto)`, opening the triple's backend id behaves as follows:
on success the id is inserted into the local id store, on
`PsaErrorDoesNotExist` the triple is queued for removal, on any other open
error `new` returns `none`; and the queued removals are applied to the KIM
only after the loop over all triples completes. -/
theorem mbed_new_reconciliation (env : MbedEnv) (store : KIMState)
    (key_triples : List KeyTriple)
    (hinit : env.cryptoInitResult = PSA_SUCCESS)
    (hga : store.get_all ProviderID.MbedCrypto = Except.ok key_triples) :
    ReconcileConcl env store key_triples := by
  refine ⟨?_, ?_, ?_, MbedProvider.new_eq hinit hga⟩
  · intro p hp t ht id hid ho
    obtain ⟨_, kts, L, R, hga2, hloop, har, hlid⟩ :=
      MbedProvider.new_some_inv hp
    have hk : key_triples = kts := by
      have := hga.symm.trans hga2
      exact Except.ok.inj this
    subst hk
    have hkeep := tripleOutcome_keep_of hid ho
    rw [hlid]
    exact ((initLoop_some_char env store key_triples ∅ L [] R hloop).1
      id).mpr (Or.inr ⟨t, ht, hkeep⟩)
  · intro L R hloop t ht id hid ho
    have hdisc := tripleOutcome_discard_of_dne hid ho
    exact ((initLoop_some_char env store key_triples ∅ L [] R hloop).2
      t).mpr (Or.inr ⟨ht, hdisc⟩)
  · rintro ⟨t, ht, id, e, hid, ho, hne⟩
    have habort := tripleOutcome_abort_of hid ho hne
    have hnone : initLoop env store key_triples ∅ [] = none :=
      (initLoop_none_iff env store key_triples ∅ []).mpr ⟨t, ht, habort⟩
    rw [MbedProvider.new_eq hinit hga, hnone]

/-- Witness for C1 at a concrete environment and store. -/
theorem mbed_new_reconciliation_witness :
    envOpen1.cryptoInitResult = PSA_SUCCESS ∧
    storeC1.get_all ProviderID.MbedCrypto = Except.ok [tA, tB] ∧
    ReconcileConcl envOpen1 storeC1 [tA, tB] :=
  ⟨rfl, rfl, mbed_new_reconciliation envOpen1 storeC1 [tA, tB] rfl rfl⟩

/-- C2 counterexample: when two distinct MbedCrypto triples in the initial
KIM carry the same backend id and both open successfully, `new` succeeds but
the shared id in the local id store corresponds to two distinct triples in
the KIM, refuting invariant I3 as stated. -/
theorem mbed_new_i3_counterexample :
    ∃ p, MbedProvider.new envOpen5 storeDup = some p ∧
      5 ∈ p.local_ids ∧
      (tA, i5) ∈ p.key_info_store.entries ∧
      (tB, i5) ∈ p.key_info_store.entries ∧
      tA ≠ tB ∧
      tA.provider = ProviderID.MbedCrypto ∧
      tB.provider = ProviderID.MbedCrypto ∧
      i5.id = 5 :=
  ⟨_, rfl, by decide, by decide, by decide, by decide, by decide,
    by decide, rfl⟩

/-- C2 amended: if `new` succeeds then I2 holds; I3 additionally holds
provided the initial KIM is well formed (its triples are distinct, per the
KIM contract) and no two of its MbedCrypto triples carry the same backend
id. -/
theorem mbed_new_invariants_amended (env : MbedEnv) (store : KIMState)
    (p : MbedProvider) (hnd : (store.entries.map Prod.fst).Nodup)
    (hdist : ∀ e1 ∈ store.entries, ∀ e2 ∈ store.entries,
      e1.1.provider = ProviderID.MbedCrypto →
      e2.1.provider = ProviderID.MbedCrypto →
      e1.1 ≠ e2.1 → e1.2.id ≠ e2.2.id)
    (hnew : MbedProvider.new env store = some p) :
    InvariantI2 p ∧ InvariantI3 p := by
  obtain ⟨hinit, kts, L, R, hga, hloop, har, hlid⟩ :=
    MbedProvider.new_some_inv hnew
  obtain ⟨hgaF, hktsEq⟩ := KIMState.get_all_ok_inv hga
  obtain ⟨hent, _, _, _, _⟩ :=
    applyRemovals_ok_inv R store p.key_info_store har
  obtain ⟨hLchar, hRchar⟩ := initLoop_some_char env store kts ∅ L [] R hloop
  have hmemKts : ∀ t info, (t, info) ∈ store.entries →
      t.provider = ProviderID.MbedCrypto → t ∈ kts := by
    intro t info hm hprov
    rw [hktsEq]
    exact List.mem_map_of_mem Prod.fst
      (List.mem_filter.mpr ⟨hm, by simp [hprov]⟩)
  have hktsProv : ∀ t ∈ kts, t.provider = ProviderID.MbedCrypto := by
    intro t ht
    rw [hktsEq] at ht
    obtain ⟨e, he, hfst⟩ := List.mem_map.mp ht
    have := (List.mem_filter.mp he).2
    rw [← hfst]
    exact of_decide_eq_true this
  constructor
  · intro t info hm hprov
    rw [hent] at hm
    have hm0 : (t, info) ∈ store.entries := List.mem_of_mem_filter hm
    have hnotR : t ∉ R := by
      have := (List.mem_filter.mp hm).2
      simpa using this
    have htk : t ∈ kts := hmemKts t info hm0 hprov
    cases hto : tripleOutcome env store t with
    | discard => exact absurd ((hRchar t).mpr (Or.inr ⟨htk, hto⟩)) hnotR
    | abort =>
      have hnone := (initLoop_none_iff env store kts ∅ []).mpr ⟨t, htk, hto⟩
      rw [hloop] at hnone
      cases hnone
    | keep id =>
      obtain ⟨hkid, _⟩ := tripleOutcome_keep_inv hto
      have hideq : id = info.id := get_key_id_ok_det hnd hm0 hkid
      subst hideq
      rw [hlid]
      exact (hLchar info.id).mpr (Or.inr ⟨t, htk, hto⟩)
  · intro id hidmem
    rw [hlid] at hidmem
    rcases (hLchar id).mp hidmem with hfalse | ⟨t, htk, hto⟩
    · cases Finset.not_mem_empty id hfalse
    obtain ⟨hkid, _⟩ := tripleOutcome_keep_inv hto
    obtain ⟨_, info0, hm0, hid0⟩ := get_key_id_ok_inv hkid
    have hprovT : t.provider = ProviderID.MbedCrypto := hktsProv t htk
    have htnotR : t ∉ R := by
      intro hR
      rcases (hRchar t).mp hR with hnil | ⟨_, hdisc⟩
      · cases hnil
      · rw [hto] at hdisc
        cases hdisc
    have hmfin : (t, info0) ∈ p.key_info_store.entries := by
      rw [hent]
      exact List.mem_filter.mpr ⟨hm0, by simp [htnotR]⟩
    refine ⟨t, info0, hmfin, hprovT, hid0, ?_⟩
    intro t2 info2 hm2 hprov2 hid2
    rw [hent] at hm2
    have hm20 : (t2, info2) ∈ store.entries := List.mem_of_mem_filter hm2
    by_contra hne
    exact hdist (t2, info2) hm20 (t, info0) hm0 hprov2 hprovT hne
      (by rw [hid2, hid0])

/-- Witness for the amended C2 at a concrete environment and store. -/
theorem mbed_new_invariants_amended_witness :
    ∃ p, MbedProvider.new envOpen1 storeOne = some p ∧
      InvariantI2 p ∧ InvariantI3 p :=
  ⟨_, rfl,
    mbed_new_invariants_amended envOpen1 storeOne _ (by decide)
      (by decide) rfl⟩

/-- C3 counterexample: a KIM I/O error while fetching an individual triple's
key info does not abort initialisation — the triple is queued for removal
and `new` still returns `Some`, refuting the claim that every KIM error
during startup is fatal. -/
theorem mbed_new_kim_get_error_counterexample :
    get_key_id tA storeGetErr =
      Except.error ResponseStatus.KeyInfoManagerError ∧
    storeGetErr.get_all ProviderID.MbedCrypto = Except.ok [tA] ∧
    (MbedProvider.new envOpen1 storeGetErr).isSome = true :=
  ⟨rfl, rfl, rfl⟩

/-- C3 amended: a KIM error from `get_all` or from `remove` is fatal (`new`
returns `none`), while a KIM error fetching an individual triple's key info
queues the triple for removal and the loop continues. -/
theorem mbed_new_kim_errors_amended (env : MbedEnv) (store : KIMState) :
    (∀ e, store.get_all ProviderID.MbedCrypto = Except.error e →
       MbedProvider.new env store = none) ∧
    (∀ key_triples local_ids to_remove r,
       store.get_all ProviderID.MbedCrypto = Except.ok key_triples →
       initLoop env store key_triples ∅ [] = some (local_ids, to_remove) →
       r ∈ to_remove → store.removeError r = true →
       MbedProvider.new env store = none) ∧
    (∀ t ts (local_ids : Finset Nat) (to_remove : List KeyTriple) e,
       get_key_id t store = Except.error e →
       initLoop env store (t :: ts) local_ids to_remove =
         initLoop env store ts local_ids (to_remove ++ [t])) := by
  refine ⟨?_, ?_, ?_⟩
  · intro e hga
    exact MbedProvider.new_none_of_get_all_error hga
  · intro kts L R r hga hloop hr hre
    by_cases hinit : env.cryptoInitResult = PSA_SUCCESS
    · rw [MbedProvider.new_eq hinit hga, hloop]
      dsimp only
      obtain ⟨e2, happ⟩ := applyRemovals_error_of R store r hr hre
      rw [happ]
    · unfold MbedProvider.new
      rw [if_pos hinit]
  · intro t ts L R e hk
    simp [initLoop, hk]

/-- Witness for the amended C3 at concrete stores. -/
theorem mbed_new_kim_errors_amended_witness :
    MbedProvider.new envOpen1 storeGAErr = none ∧
    initLoop envOpen1 storeGetErr [tA] ∅ [] =
      initLoop envOpen1 storeGetErr [] ∅ ([] ++ [tA]) :=
  ⟨(mbed_new_kim_errors_amended envOpen1 storeGAErr).1 "KIM get_all error" rfl,
   (mbed_new_kim_errors_amended envOpen1 storeGetErr).2.2 tA [] ∅ []
     ResponseStatus.KeyInfoManagerError rfl⟩

/-- C4: every default method body of the `Provide` trait returns
`Err(PsaErrorNotSupported)`, for every input. -/
theorem provide_defaults_not_supported :
    Provide.default_describe =
      Except.error ResponseStatus.PsaErrorNotSupported ∧
    (∀ op, Provide.default_list_providers op =
      Except.error ResponseStatus.PsaErrorNotSupported) ∧
    (∀ op, Provide.default_list_opcodes op =
      Except.error ResponseStatus.PsaErrorNotSupported) ∧
    (∀ op, Provide.default_ping op =
      Except.error ResponseStatus.PsaErrorNotSupported) ∧
    (∀ app op, Provide.default_psa_generate_key app op =
      Except.error ResponseStatus.PsaErrorNotSupported) ∧
    (∀ app op, Provide.default_psa_import_key app op =
      Except.error ResponseStatus.PsaErrorNotSupported) ∧
    (∀ app op, Provide.default_psa_export_public_key app op =
      Except.error ResponseStatus.PsaErrorNotSupported) ∧
    (∀ app op, Provide.default_psa_destroy_key app op =
      Except.error ResponseStatus.PsaErrorNotSupported) ∧
    (∀ app op, Provide.default_psa_sign_hash app op =
      Except.error ResponseStatus.PsaErrorNotSupported) ∧
    (∀ app op, Provide.default_psa_verify_hash app op =
      Except.error ResponseStatus.PsaErrorNotSupported) :=
  ⟨rfl, fun _ => rfl, fun _ => rfl, fun _ => rfl, fun _ _ => rfl,
   fun _ _ => rfl, fun _ _ => rfl, fun _ _ => rfl, fun _ _ => rfl,
   fun _ _ => rfl⟩

/-- C5: `MbedProvider::describe` returns `Ok` with the fixed UUID, vendor
"Arm", version 0.1.0 and id `MbedCrypto`, paired with exactly the six
supported opcodes. -/
theorem mbed_describe_spec :
    MbedProvider.describe =
      Except.ok
        ({ uuid := "1c1139dc-ad7c-47dc-ad6b-db6fdb466552",
           description := "User space software provider, based on Mbed Crypto - the reference implementation of the PSA crypto API",
           vendor := "Arm", version_maj := 0, version_min := 1,
           version_rev := 0, id := ProviderID.MbedCrypto },
         SUPPORTED_OPCODES.toFinset) ∧
    SUPPORTED_OPCODES.toFinset =
      {Opcode.PsaGenerateKey, Opcode.PsaDestroyKey, Opcode.PsaSignHash,
       Opcode.PsaVerifyHash, Opcode.PsaImportKey,
       Opcode.PsaExportPublicKey} :=
  ⟨rfl, by decide⟩

/-- Each slot-protocol step preserves the total of permits, held permits and
open slots. -/
theorem slotStep_sum_eq {s s2 : SlotState} (h : SlotStep s s2) :
    s2.permits + s2.holding + s2.openSlots =
      s.permits + s.holding + s.openSlots := by
  cases h <;> dsimp <;> omega

/-- Every state reachable from the initial slot state keeps the total equal
to `PSA_KEY_SLOT_COUNT`. -/
theorem slotReachable_sum {s : SlotState}
    (h : SlotReachable mbedInitialSlotState s) :
    s.permits + s.holding + s.openSlots = PSA_KEY_SLOT_COUNT := by
  unfold SlotReachable at h
  induction h with
  | refl => rfl
  | tail _ hstep ih => rw [slotStep_sum_eq hstep]; exact ih

/-- C6: the semaphore is constructed with `PSA_KEY_SLOT_COUNT` permits, and
under the acquire-open-close-release protocol the number of concurrently
open key slots never exceeds `PSA_KEY_SLOT_COUNT` in any reachable state. -/
theorem mbed_slot_bound :
    mbedInitialSlotState.permits = PSA_KEY_SLOT_COUNT ∧
    ∀ s, SlotReachable mbedInitialSlotState s →
      s.openSlots ≤ PSA_KEY_SLOT_COUNT := by
  refine ⟨rfl, ?_⟩
  intro s h
  have := slotReachable_sum h
  omega

/-- Witness for C6: a state with one open slot, reached by an acquire
followed by an open. -/
theorem mbed_slot_bound_witness :
    mbedInitialSlotState.permits = PSA_KEY_SLOT_COUNT ∧
    ({ permits := 31, holding := 0, openSlots := 1 } : SlotState).openSlots ≤
      PSA_KEY_SLOT_COUNT :=
  ⟨mbed_slot_bound.1,
   mbed_slot_bound.2 { permits := 31, holding := 0, openSlots := 1 }
     (Relation.ReflTransGen.head (SlotStep.acquire 31 0 0)
       (Relation.ReflTransGen.single (SlotStep.openSlot 31 0 0)))⟩

/-- C7: if the key-info-store lock or the local-id-store lock is poisoned
when `MbedProvider::new` acquires it, the call panics rather than returning
any value. -/
theorem mbed_new_lock_poison_panics (env : MbedEnv) (store : KIMState)
    (hinit : env.cryptoInitResult = PSA_SUCCESS)
    (hp : env.storeLockPoisoned = true ∨ env.localIdsLockPoisoned = true) :
    ∃ msg, MbedProvider.newTotal env store = InitResult.panicked msg ∧
      ∀ r, MbedProvider.newTotal env store ≠ InitResult.returned r := by
  unfold MbedProvider.newTotal
  have hne : ¬(env.cryptoInitResult ≠ PSA_SUCCESS) := by simp [hinit]
  rw [if_neg hne]
  cases hs : env.storeLockPoisoned with
  | true => refine ⟨"Key store lock poisoned", ?_, ?_⟩ <;> simp
  | false =>
    rcases hp with hp | hp
    · rw [hs] at hp
      cases hp
    · refine ⟨"Local ID lock poisoned", ?_, ?_⟩ <;> simp [hp]

/-- Witness for C7 at a concrete poisoned environment. -/
theorem mbed_new_lock_poison_panics_witness :
    envPoisonStore.cryptoInitResult = PSA_SUCCESS ∧
    ∃ msg, MbedProvider.newTotal envPoisonStore storeEmpty =
        InitResult.panicked msg ∧
      ∀ r, MbedProvider.newTotal envPoisonStore storeEmpty ≠
        InitResult.returned r :=
  ⟨rfl, mbed_new_lock_poison_panics envPoisonStore storeEmpty rfl
    (Or.inl rfl)⟩

/-- C8: `ProviderConfig` has exactly the three variants, deserialization is
discriminated by the "provider_type" tag and binds the variant's
`key_info_manager` field, `key_info_manager()` returns that field and
`provider_id()` returns the matching `ProviderID`. -/
theorem provider_config_spec :
    (∀ cfg : ProviderConfig, (∃ s, cfg = ProviderConfig.MbedCrypto s) ∨
      (∃ a b c d, cfg = ProviderConfig.Pkcs11 a b c d) ∨
      (∃ a b c, cfg = ProviderConfig.Tpm a b c)) ∧
    (∀ fields cfg, deserializeProviderConfig fields = Except.ok cfg →
      lookupField fields "provider_type" = some (ConfigValue.str cfg.tag) ∧
      lookupField fields "key_info_manager" =
        some (ConfigValue.str cfg.key_info_manager)) ∧
    (∀ s, (ProviderConfig.MbedCrypto s).key_info_manager = s ∧
      (ProviderConfig.MbedCrypto s).provider_id = ProviderID.MbedCrypto) ∧
    (∀ a b c d, (ProviderConfig.Pkcs11 a b c d).key_info_manager = a ∧
      (ProviderConfig.Pkcs11 a b c d).provider_id = ProviderID.Pkcs11) ∧
    (∀ a b c, (ProviderConfig.Tpm a b c).key_info_manager = a ∧
      (ProviderConfig.Tpm a b c).provider_id = ProviderID.Tpm) := by
  refine ⟨?_, ?_, fun s => ⟨rfl, rfl⟩, fun a b c d => ⟨rfl, rfl⟩,
    fun a b c => ⟨rfl, rfl⟩⟩
  · intro cfg
    cases cfg with
    | MbedCrypto s => exact Or.inl ⟨s, rfl⟩
    | Pkcs11 a b c d => exact Or.inr (Or.inl ⟨a, b, c, d, rfl⟩)
    | Tpm a b c => exact Or.inr (Or.inr ⟨a, b, c, rfl⟩)
  · intro fields cfg h
    cases hpt : lookupField fields "provider_type" with
    | none => simp [deserializeProviderConfig, hpt] at h
    | some v =>
      cases v with
      | num n => simp [deserializeProviderConfig, hpt] at h
      | str tag =>
        rw [deserializeProviderConfig, hpt] at h
        dsimp only at h
        by_cases h1 : tag = "MbedCrypto"
        · subst h1
          rw [if_pos rfl] at h
          cases hkim : lookupField fields "key_info_manager" with
          | none => rw [hkim] at h; cases h
          | some w =>
            cases w with
            | num n => rw [hkim] at h; cases h
            | str kim =>
              rw [hkim] at h
              cases h
              exact ⟨rfl, rfl⟩
        · rw [if_neg h1] at h
          by_cases h2 : tag = "Pkcs11"
          · subst h2
            rw [if_pos rfl] at h
            cases hkim : lookupField fields "key_info_manager" with
            | none => rw [hkim] at h; cases h
            | some w =>
              cases w with
              | num n =>
                rw [hkim] at h
                cases hlib : lookupField fields "library_path" <;>
                  rw [hlib] at h <;> cases h
              | str kim =>
                rw [hkim] at h
                cases hlib : lookupField fields "library_path" with
                | none => rw [hlib] at h; cases h
                | some w2 =>
                  cases w2 with
                  | num n =>
                    rw [hlib] at h
                    cases hsl : lookupField fields "slot_number" <;>
                      rw [hsl] at h <;> cases h
                  | str lib =>
                    rw [hlib] at h
                    cases hsl : lookupField fields "slot_number" with
                    | none => rw [hsl] at h; cases h
                    | some w3 =>
                      cases w3 with
                      | str s2 => rw [hsl] at h; cases h
                      | num slot =>
                        rw [hsl] at h
                        cases hpin : lookupField fields "user_pin" with
                        | none =>
                          rw [hpin] at h
                          cases h
                          exact ⟨rfl, rfl⟩
                        | some w4 =>
                          cases w4 with
                          | num n2 => rw [hpin] at h; cases h
                          | str pin =>
                            rw [hpin] at h
                            cases h
                            exact ⟨rfl, rfl⟩
          · rw [if_neg h2] at h
            by_cases h3 : tag = "Tpm"
            · subst h3
              rw [if_pos rfl] at h
              cases hkim : lookupField fields "key_info_manager" with
              | none => rw [hkim] at h; cases h
              | some w =>
                cases w with
                | num n =>
                  rw [hkim] at h
                  cases htc : lookupField fields "tcti" <;>
                    rw [htc] at h <;> cases h
                | str kim =>
                  rw [hkim] at h
                  cases htc : lookupField fields "tcti" with
                  | none => rw [htc] at h; cases h
                  | some w2 =>
                    cases w2 with
                    | num n =>
                      rw [htc] at h
                      cases hau : lookupField fields "owner_hierarchy_auth" <;>
                        rw [hau] at h <;> cases h
                    | str tcti =>
                      rw [htc] at h
                      cases hau : lookupField fields "owner_hierarchy_auth" with
                      | none => rw [hau] at h; cases h
                      | some w3 =>
                        cases w3 with
                        | num n => rw [hau] at h; cases h
                        | str auth =>
                          rw [hau] at h
                          cases h
                          exact ⟨rfl, rfl⟩
            · rw [if_neg h3] at h
              cases h

/-- Witness for C8 at a concrete serialized record. -/
theorem provider_config_spec_witness :
    deserializeProviderConfig
        [("provider_type", ConfigValue.str "MbedCrypto"),
         ("key_info_manager", ConfigValue.str "sqlite")] =
      Except.ok (ProviderConfig.MbedCrypto "sqlite") ∧
    lookupField
        [("provider_type", ConfigValue.str "MbedCrypto"),
         ("key_info_manager", ConfigValue.str "sqlite")] "provider_type" =
      some (ConfigValue.str (ProviderConfig.MbedCrypto "sqlite").tag) ∧
    lookupField
        [("provider_type", ConfigValue.str "MbedCrypto"),
         ("key_info_manager", ConfigValue.str "sqlite")] "key_info_manager" =
      some (ConfigValue.str
        (ProviderConfig.MbedCrypto "sqlite").key_info_manager) :=
  ⟨rfl,
   (provider_config_spec.2.1
     [("provider_type", ConfigValue.str "MbedCrypto"),
      ("key_info_manager", ConfigValue.str "sqlite")]
     (ProviderConfig.MbedCrypto "sqlite") rfl).1,
   (provider_config_spec.2.1
     [("provider_type", ConfigValue.str "MbedCrypto"),
      ("key_info_manager", ConfigValue.str "sqlite")]
     (ProviderConfig.MbedCrypto "sqlite") rfl).2⟩

/-- The reconciliation loop never calls `psa_crypto_init`. -/
theorem initLoopTrace_no_init (env : MbedEnv) (store : KIMState) :
    ∀ l, CryptoCall.cryptoInit ∉ initLoopTrace env store l := by
  intro l
  induction l with
  | nil => simp [initLoopTrace]
  | cons t ts ih =>
    cases hk : get_key_id t store with
    | error e => simpa [initLoopTrace, hk] using ih
    | ok id =>
      cases ho : env.openKey id with
      | ok u => simpa [initLoopTrace, hk, ho] using ih
      | error e =>
        by_cases he : e = ResponseStatus.PsaErrorDoesNotExist
        · simpa [initLoopTrace, hk, ho, he] using ih
        · simp [initLoopTrace, hk, ho, he]

/-- C9: `psa_crypto_init` is called exactly once, at the very start of
`MbedProvider::new` (before any key open), `new` returns `none` when it does
not return `PSA_SUCCESS`, and dropping the provider calls
`mbedtls_psa_crypto_free` exactly once. -/
theorem mbed_crypto_lifecycle (env : MbedEnv) (store : KIMState) :
    (MbedProvider.newTrace env store).head? = some CryptoCall.cryptoInit ∧
    (MbedProvider.newTrace env store).count CryptoCall.cryptoInit = 1 ∧
    (env.cryptoInitResult ≠ PSA_SUCCESS →
      MbedProvider.new env store = none) ∧
    MbedProvider.dropTrace.count CryptoCall.cryptoFree = 1 := by
  refine ⟨rfl, ?_, ?_, by decide⟩
  · by_cases hinit : env.cryptoInitResult ≠ PSA_SUCCESS
    · simp [MbedProvider.newTrace, hinit, List.count_cons]
    · cases hga : store.get_all ProviderID.MbedCrypto with
      | error e =>
        simp [MbedProvider.newTrace, hinit, hga, List.count_cons]
      | ok kts =>
        simp [MbedProvider.newTrace, hinit, hga, List.count_cons,
          List.count_eq_zero.mpr (initLoopTrace_no_init env store kts)]
  · intro hinit
    unfold MbedProvider.new
    rw [if_pos hinit]

/-- Witness for C9 at a failing-initialisation environment. -/
theorem mbed_crypto_lifecycle_witness :
    (MbedProvider.newTrace envInitFail storeEmpty).head? =
      some CryptoCall.cryptoInit ∧
    (MbedProvider.newTrace envInitFail storeEmpty).count
      CryptoCall.cryptoInit = 1 ∧
    MbedProvider.new envInitFail storeEmpty = none ∧
    MbedProvider.dropTrace.count CryptoCall.cryptoFree = 1 :=
  ⟨(mbed_crypto_lifecycle envInitFail storeEmpty).1,
   (mbed_crypto_lifecycle envInitFail storeEmpty).2.1,
   (mbed_crypto_lifecycle envInitFail storeEmpty).2.2.1 (by decide),
   (mbed_crypto_lifecycle envInitFail storeEmpty).2.2.2⟩

/-- C10 counterexample: with a poisoned key-info-store lock,
`MbedProviderBuilder::build` propagates the panic from `MbedProvider::new`
instead of returning a result, refuting the claim that `build` never
panics. -/
theorem mbed_builder_panic_counterexample :
    MbedProviderBuilder.build envPoisonStore
      (MbedProviderBuilder.with_key_info_store
        MbedProviderBuilder.newBuilder storeEmpty) =
      BuildResult.panicked "Key store lock poisoned" := rfl

/-- C10 amended: provided no lock is poisoned (so `MbedProvider::new` cannot
panic), `build` never panics and behaves as claimed: a missing key info
store yields an `InvalidData` error "missing key info store", a failed
`MbedProvider::new` yields an `InvalidData` error "Mbed Provider
initialization failed", and otherwise the constructed provider is
returned. -/
theorem mbed_builder_build_amended (env : MbedEnv) (b : MbedProviderBuilder)
    (hs : env.storeLockPoisoned = false)
    (hl : env.localIdsLockPoisoned = false) :
    (b.key_info_store = none →
      MbedProviderBuilder.build env b =
        BuildResult.completed (Except.error
          { kind := IoErrorKind.InvalidData,
            msg := "missing key info store" })) ∧
    (∀ store, b.key_info_store = some store →
      MbedProvider.new env store = none →
      MbedProviderBuilder.build env b =
        BuildResult.completed (Except.error
          { kind := IoErrorKind.InvalidData,
            msg := "Mbed Provider initialization failed" })) ∧
    (∀ store p, b.key_info_store = some store →
      MbedProvider.new env store = some p →
      MbedProviderBuilder.build env b =
        BuildResult.completed (Except.ok p)) ∧
    (∀ msg, MbedProviderBuilder.build env b ≠ BuildResult.panicked msg) := by
  have htot : ∀ store : KIMState, MbedProvider.newTotal env store =
      InitResult.returned (MbedProvider.new env store) :=
    fun _ => MbedProvider.newTotal_eq_of_not_poisoned hs hl
  refine ⟨?_, ?_, ?_, ?_⟩
  · intro hb
    simp [MbedProviderBuilder.build, hb]
  · intro store hb hnone
    simp [MbedProviderBuilder.build, hb, htot store, hnone]
  · intro store p hb hsome
    simp [MbedProviderBuilder.build, hb, htot store, hsome]
  · intro msg
    cases hb : b.key_info_store with
    | none => simp [MbedProviderBuilder.build, hb]
    | some store =>
      cases hnew : MbedProvider.new env store <;>
        simp [MbedProviderBuilder.build, hb, htot store, hnew]

/-- Witness for the amended C10 on the empty builder. -/
theorem mbed_builder_build_amended_witness :
    MbedProviderBuilder.build envOpen1 MbedProviderBuilder.newBuilder =
      BuildResult.completed (Except.error
        { kind := IoErrorKind.InvalidData,
          msg := "missing key info store" }) :=
  (mbed_builder_build_amended envOpen1 MbedProviderBuilder.newBuilder
    rfl rfl).1 rfl
